import Mathlib

/-!
Shallow embedding of `src/focusclock/logic.py` (the FocusClock phase/timer
state machine and segment logger), together with theorems checking the
natural-language specification against it.

Conventions of the embedding:
* Python `int` becomes `Int`; seconds counters and durations keep their
  source semantics (no clamping beyond what the source does).
* Python strings used as enums (`mode`, `after_micro`, `profile`, segment
  kinds) stay `String`, with the exact literals of the source.
* `set[int]` (reminder bookkeeping) becomes `Finset Int`.
* `datetime.now()` is modelled by an explicit `now : Nat` argument passed to
  every operation that can open or close a log segment; monotonicity of the
  wall clock across calls is a hypothesis of the reachability relation.
* The `on_change` / `beep` callbacks do not touch `ClockState`, so they are
  dropped.
* Methods of `FocusClockLogic` become pure functions `ClockState → ... →
  ClockState`.
-/

namespace FocusClock

/-- One closed interval of the segment log (`LogEntry` in the source).
The Python field `end` is a Lean keyword, so it is called `stop` here. -/
structure LogEntry where
  kind : String
  start : Nat
  stop : Nat
deriving Repr, DecidableEq

/-- The `ClockState` dataclass: every field of the source, in source order. -/
structure ClockState where
  focus_min : Int
  break_min : Int
  micro_sec : Int
  session_goal : Int
  screen_breaks_enabled : Bool
  profile : String
  work_elapsed_sec : Int
  last_export_date : String
  flushed_log_idx : Int
  mode : String
  remaining : Int
  completed_units : Int
  microbreak_active : Bool
  microbreak_remaining : Int
  after_micro : String
  finished : Bool
  running : Bool
  pre_lunch_mode : String
  pre_lunch_remaining : Int
  pre_lunch_was_running : Bool
  reminded_this_focus : Finset Int
  remind_at : Finset Int
  total_open_sec : Int
  paused_sec : Int
  microbreak_sec : Int
  focus_work_sec : Int
  log : List LogEntry
  segment_kind : String
  segment_start : Option Nat
deriving DecidableEq

/-- `DEFAULT_REMIND_AT = {40 * 60, 20 * 60, 0}`. -/
def DEFAULT_REMIND_AT : Finset Int := {40 * 60, 20 * 60, 0}

/-- The dataclass defaults of `ClockState` (the initial state). -/
def initState : ClockState where
  focus_min := 50
  break_min := 10
  micro_sec := 60
  session_goal := 7
  screen_breaks_enabled := true
  profile := "study"
  work_elapsed_sec := 0
  last_export_date := ""
  flushed_log_idx := 0
  mode := "focus"
  remaining := 50 * 60
  completed_units := 0
  microbreak_active := false
  microbreak_remaining := 0
  after_micro := ""
  finished := false
  running := false
  pre_lunch_mode := "focus"
  pre_lunch_remaining := 0
  pre_lunch_was_running := false
  reminded_this_focus := ∅
  remind_at := DEFAULT_REMIND_AT
  total_open_sec := 0
  paused_sec := 0
  microbreak_sec := 0
  focus_work_sec := 0
  log := []
  segment_kind := ""
  segment_start := none

/-- `FocusClockLogic._current_kind`. -/
def current_kind (s : ClockState) : String :=
  if s.profile = "worklog" then
    if s.running then "WORK" else "PAUSE"
  else if s.microbreak_active then "SCREEN_BREAK"
  else if ¬ s.running then "PAUSED"
  else if s.mode = "focus" then "FOCUS"
  else if s.mode = "break" then "BREAK"
  else if s.mode = "lunch" then "LUNCH"
  else s.mode.toUpper

/-- `FocusClockLogic._close_segment` (with `end = now`): appends the open
segment to the log, unless no segment is open or its kind is empty. -/
def close_segment (s : ClockState) (now : Nat) : ClockState :=
  match s.segment_start with
  | none => s
  | some st =>
    if s.segment_kind = "" then s
    else
      { s with
        log := s.log ++ [⟨s.segment_kind, st, now⟩]
        segment_kind := ""
        segment_start := none }

/-- `FocusClockLogic._open_segment` (with `start = now`). -/
def open_segment (s : ClockState) (kind : String) (now : Nat) : ClockState :=
  { s with segment_kind := kind, segment_start := some now }

/-- `FocusClockLogic._roll_segment_if_needed`, with both `_now()` reads
returning `now`. -/
def roll_segment_if_needed (s : ClockState) (now : Nat) : ClockState :=
  match s.segment_start with
  | none => open_segment s (current_kind s) now
  | some _ =>
    if current_kind s ≠ s.segment_kind then
      open_segment (close_segment s now) (current_kind s) now
    else s

/-- `FocusClockLogic.mark_finished`. -/
def mark_finished (s : ClockState) : ClockState :=
  if s.profile = "worklog" then s
  else
    { s with
      finished := true
      running := false
      microbreak_active := false
      microbreak_remaining := 0
      after_micro := "" }

/-- `FocusClockLogic.switch_to_break`. -/
def switch_to_break (s : ClockState) (now : Nat) : ClockState :=
  roll_segment_if_needed
    { s with mode := "break", remaining := s.break_min * 60 } now

/-- `FocusClockLogic.switch_to_focus`. -/
def switch_to_focus (s : ClockState) (now : Nat) : ClockState :=
  roll_segment_if_needed
    { s with
      mode := "focus"
      remaining := s.focus_min * 60
      reminded_this_focus := ∅ } now

/-- `FocusClockLogic.start_lunch_break`. -/
def start_lunch_break (s : ClockState) (now : Nat) : ClockState :=
  if s.finished then s
  else
    roll_segment_if_needed
      { s with
        pre_lunch_mode := s.mode
        pre_lunch_remaining := s.remaining
        pre_lunch_was_running := s.running
        microbreak_active := false
        microbreak_remaining := 0
        after_micro := ""
        mode := "lunch"
        remaining := 60 * 60
        running := true } now

/-- `FocusClockLogic.end_microbreak`. -/
def end_microbreak (s : ClockState) (now : Nat) : ClockState :=
  let s1 : ClockState :=
    { s with microbreak_active := false, microbreak_remaining := 0 }
  let s2 : ClockState :=
    if s1.after_micro = "resume_focus" then s1
    else if s1.after_micro = "go_break" then switch_to_break s1 now
    else if s1.after_micro = "go_focus" then switch_to_focus s1 now
    else s1
  roll_segment_if_needed { s2 with after_micro := "" } now

/-- `FocusClockLogic.start_microbreak`. -/
def start_microbreak (s : ClockState) (am : String) (now : Nat) : ClockState :=
  if s.micro_sec ≤ 0 ∨ ¬ s.screen_breaks_enabled then
    end_microbreak { s with after_micro := am } now
  else
    roll_segment_if_needed
      { s with
        microbreak_active := true
        microbreak_remaining := s.micro_sec
        after_micro := am } now

/-- `FocusClockLogic.finish_focus_unit`. -/
def finish_focus_unit (s : ClockState) (use_microbreak_before_break : Bool)
    (now : Nat) : ClockState :=
  let s1 : ClockState := { s with completed_units := s.completed_units + 1 }
  if s1.completed_units ≥ s1.session_goal then mark_finished s1
  else if use_microbreak_before_break then start_microbreak s1 "go_break" now
  else switch_to_break s1 now

/-- `FocusClockLogic.start`. -/
def start (s : ClockState) (now : Nat) : ClockState :=
  if s.finished then s
  else if ¬ s.running then
    roll_segment_if_needed { s with running := true } now
  else s

/-- `FocusClockLogic.pause`. -/
def pause (s : ClockState) (now : Nat) : ClockState :=
  roll_segment_if_needed { s with running := false } now

/-- `FocusClockLogic.reset_all`. -/
def reset_all (s : ClockState) : ClockState :=
  if s.profile = "worklog" then
    { s with
      running := false
      work_elapsed_sec := 0
      log := []
      segment_kind := ""
      segment_start := none }
  else
    { s with
      running := false
      mode := "focus"
      remaining := s.focus_min * 60
      completed_units := 0
      finished := false
      microbreak_active := false
      microbreak_remaining := 0
      after_micro := ""
      reminded_this_focus := ∅
      total_open_sec := 0
      paused_sec := 0
      microbreak_sec := 0
      focus_work_sec := 0
      log := []
      segment_kind := ""
      segment_start := none }

/-- `FocusClockLogic.skip_phase`. -/
def skip_phase (s : ClockState) (now : Nat) : ClockState :=
  if s.profile = "worklog" then s
  else if s.finished then s
  else if s.microbreak_active then end_microbreak s now
  else if s.mode = "focus" then finish_focus_unit s false now
  else switch_to_focus s now

/-- `FocusClockLogic.rewind_phase` (`THRESHOLD_SEC = 10`; `elapsed_in_phase`
is inlined as `max 0 (total - remaining)`). -/
def rewind_phase (s : ClockState) (now : Nat) : ClockState :=
  if s.profile = "worklog" then s
  else if s.finished then s
  else if s.microbreak_active then
    { s with
      microbreak_active := false
      microbreak_remaining := 0
      after_micro := "" }
  else if s.mode = "focus" then
    if max 0 (s.focus_min * 60 - s.remaining) > 10 then
      { s with remaining := s.focus_min * 60 }
    else if s.completed_units = 0 then
      { s with remaining := s.focus_min * 60 }
    else
      switch_to_break { s with completed_units := s.completed_units - 1 } now
  else if s.mode = "break" then
    if max 0 (s.break_min * 60 - s.remaining) > 10 then
      { s with remaining := s.break_min * 60 }
    else switch_to_focus s now
  else if s.mode = "lunch" then
    if max 0 (60 * 60 - s.remaining) > 10 then
      { s with remaining := 60 * 60 }
    else
      { s with
        mode := s.pre_lunch_mode
        remaining := s.pre_lunch_remaining
        running := s.pre_lunch_was_running }
  else s

/-- `FocusClockLogic.on_tick`. -/
def on_tick (s : ClockState) (now : Nat) : ClockState :=
  if s.finished ∨ (¬ s.running ∧ s.profile = "study") then s
  else
    let s := roll_segment_if_needed s now
    if s.profile = "worklog" then
      if s.running then
        { s with
          total_open_sec := s.total_open_sec + 1
          focus_work_sec := s.focus_work_sec + 1
          work_elapsed_sec := s.work_elapsed_sec + 1 }
      else s
    else
      let s : ClockState := { s with total_open_sec := s.total_open_sec + 1 }
      if s.microbreak_active then
        let s : ClockState :=
          { s with
            microbreak_sec := s.microbreak_sec + 1
            microbreak_remaining := s.microbreak_remaining - 1 }
        if s.microbreak_remaining ≤ 0 then end_microbreak s now else s
      else
        let s : ClockState :=
          if s.mode = "focus" then
            { s with focus_work_sec := s.focus_work_sec + 1 }
          else s
        let s : ClockState := { s with remaining := s.remaining - 1 }
        if s.mode = "focus" ∧ s.remaining ∈ s.remind_at ∧
            s.remaining ∉ s.reminded_this_focus then
          let s : ClockState :=
            { s with
              reminded_this_focus := insert s.remaining s.reminded_this_focus }
          if s.remaining = 40 * 60 ∨ s.remaining = 20 * 60 then
            start_microbreak s "resume_focus" now
          else if s.remaining = 0 then finish_focus_unit s true now
          else if s.remaining ≤ 0 then
            if s.mode = "focus" then finish_focus_unit s true now
            else if s.mode = "lunch" then
              { s with
                mode := s.pre_lunch_mode
                remaining := s.pre_lunch_remaining
                running := s.pre_lunch_was_running }
            else switch_to_focus s now
          else s
        else
          if s.remaining ≤ 0 then
            if s.mode = "focus" then finish_focus_unit s true now
            else if s.mode = "lunch" then
              { s with
                mode := s.pre_lunch_mode
                remaining := s.pre_lunch_remaining
                running := s.pre_lunch_was_running }
            else switch_to_focus s now
          else s

/-- `FocusClockLogic.on_pause_count_tick`. -/
def on_pause_count_tick (s : ClockState) : ClockState :=
  if ¬ s.running ∧ ¬ s.microbreak_active ∧ ¬ s.finished then
    { s with paused_sec := s.paused_sec + 1 }
  else s

/-- `FocusClockLogic.apply_settings`. -/
def apply_settings (s : ClockState) (focus_min break_min micro_sec goal
    start_unit : Int) (screen_breaks_enabled : Bool) : ClockState :=
  let s1 : ClockState :=
    { s with
      focus_min := focus_min
      break_min := break_min
      micro_sec := micro_sec
      session_goal := goal
      screen_breaks_enabled := screen_breaks_enabled }
  let su : Int := max 1 (min start_unit s1.session_goal)
  let s2 : ClockState := { s1 with completed_units := su - 1, finished := false }
  if ¬ s2.running ∧ ¬ s2.microbreak_active then
    { s2 with
      remaining :=
        if s2.mode = "focus" then s2.focus_min * 60 else s2.break_min * 60 }
  else s2

/-!
Frame infrastructure: `roll_segment_if_needed` (and its two helpers) touch
only the three logging fields `log`, `segment_kind`, `segment_start`.
`CoreView` collects all the other fields, so that one equation per helper
yields every needed projection lemma.
-/

structure CoreView where
  focus_min : Int
  break_min : Int
  micro_sec : Int
  session_goal : Int
  screen_breaks_enabled : Bool
  profile : String
  work_elapsed_sec : Int
  last_export_date : String
  flushed_log_idx : Int
  mode : String
  remaining : Int
  completed_units : Int
  microbreak_active : Bool
  microbreak_remaining : Int
  after_micro : String
  finished : Bool
  running : Bool
  pre_lunch_mode : String
  pre_lunch_remaining : Int
  pre_lunch_was_running : Bool
  reminded_this_focus : Finset Int
  remind_at : Finset Int
  total_open_sec : Int
  paused_sec : Int
  microbreak_sec : Int
  focus_work_sec : Int

def coreView (s : ClockState) : CoreView :=
  ⟨s.focus_min, s.break_min, s.micro_sec, s.session_goal,
   s.screen_breaks_enabled, s.profile, s.work_elapsed_sec,
   s.last_export_date, s.flushed_log_idx, s.mode, s.remaining,
   s.completed_units, s.microbreak_active, s.microbreak_remaining,
   s.after_micro, s.finished, s.running, s.pre_lunch_mode,
   s.pre_lunch_remaining, s.pre_lunch_was_running, s.reminded_this_focus,
   s.remind_at, s.total_open_sec, s.paused_sec, s.microbreak_sec,
   s.focus_work_sec⟩

theorem coreView_roll (s : ClockState) (now : Nat) :
    coreView (roll_segment_if_needed s now) = coreView s := by
  unfold roll_segment_if_needed close_segment open_segment
  cases h : s.segment_start
  · rfl
  · simp only []
    split
    · split <;> rfl
    · rfl

theorem roll_mode (s : ClockState) (now : Nat) :
    (roll_segment_if_needed s now).mode = s.mode :=
  congrArg CoreView.mode (coreView_roll s now)

theorem roll_remaining (s : ClockState) (now : Nat) :
    (roll_segment_if_needed s now).remaining = s.remaining :=
  congrArg CoreView.remaining (coreView_roll s now)

theorem roll_running (s : ClockState) (now : Nat) :
    (roll_segment_if_needed s now).running = s.running :=
  congrArg CoreView.running (coreView_roll s now)

theorem roll_finished (s : ClockState) (now : Nat) :
    (roll_segment_if_needed s now).finished = s.finished :=
  congrArg CoreView.finished (coreView_roll s now)

theorem roll_completed_units (s : ClockState) (now : Nat) :
    (roll_segment_if_needed s now).completed_units = s.completed_units :=
  congrArg CoreView.completed_units (coreView_roll s now)

theorem roll_session_goal (s : ClockState) (now : Nat) :
    (roll_segment_if_needed s now).session_goal = s.session_goal :=
  congrArg CoreView.session_goal (coreView_roll s now)

theorem roll_profile (s : ClockState) (now : Nat) :
    (roll_segment_if_needed s now).profile = s.profile :=
  congrArg CoreView.profile (coreView_roll s now)

theorem roll_microbreak_active (s : ClockState) (now : Nat) :
    (roll_segment_if_needed s now).microbreak_active = s.microbreak_active :=
  congrArg CoreView.microbreak_active (coreView_roll s now)

theorem roll_microbreak_remaining (s : ClockState) (now : Nat) :
    (roll_segment_if_needed s now).microbreak_remaining =
      s.microbreak_remaining :=
  congrArg CoreView.microbreak_remaining (coreView_roll s now)

theorem roll_after_micro (s : ClockState) (now : Nat) :
    (roll_segment_if_needed s now).after_micro = s.after_micro :=
  congrArg CoreView.after_micro (coreView_roll s now)

theorem roll_pre_lunch_mode (s : ClockState) (now : Nat) :
    (roll_segment_if_needed s now).pre_lunch_mode = s.pre_lunch_mode :=
  congrArg CoreView.pre_lunch_mode (coreView_roll s now)

theorem roll_pre_lunch_remaining (s : ClockState) (now : Nat) :
    (roll_segment_if_needed s now).pre_lunch_remaining =
      s.pre_lunch_remaining :=
  congrArg CoreView.pre_lunch_remaining (coreView_roll s now)

theorem roll_pre_lunch_was_running (s : ClockState) (now : Nat) :
    (roll_segment_if_needed s now).pre_lunch_was_running =
      s.pre_lunch_was_running :=
  congrArg CoreView.pre_lunch_was_running (coreView_roll s now)

theorem roll_reminded_this_focus (s : ClockState) (now : Nat) :
    (roll_segment_if_needed s now).reminded_this_focus =
      s.reminded_this_focus :=
  congrArg CoreView.reminded_this_focus (coreView_roll s now)

theorem roll_remind_at (s : ClockState) (now : Nat) :
    (roll_segment_if_needed s now).remind_at = s.remind_at :=
  congrArg CoreView.remind_at (coreView_roll s now)

theorem roll_total_open_sec (s : ClockState) (now : Nat) :
    (roll_segment_if_needed s now).total_open_sec = s.total_open_sec :=
  congrArg CoreView.total_open_sec (coreView_roll s now)

theorem roll_paused_sec (s : ClockState) (now : Nat) :
    (roll_segment_if_needed s now).paused_sec = s.paused_sec :=
  congrArg CoreView.paused_sec (coreView_roll s now)

theorem roll_microbreak_sec (s : ClockState) (now : Nat) :
    (roll_segment_if_needed s now).microbreak_sec = s.microbreak_sec :=
  congrArg CoreView.microbreak_sec (coreView_roll s now)

theorem roll_focus_work_sec (s : ClockState) (now : Nat) :
    (roll_segment_if_needed s now).focus_work_sec = s.focus_work_sec :=
  congrArg CoreView.focus_work_sec (coreView_roll s now)

theorem roll_focus_min (s : ClockState) (now : Nat) :
    (roll_segment_if_needed s now).focus_min = s.focus_min :=
  congrArg CoreView.focus_min (coreView_roll s now)

theorem roll_break_min (s : ClockState) (now : Nat) :
    (roll_segment_if_needed s now).break_min = s.break_min :=
  congrArg CoreView.break_min (coreView_roll s now)

theorem roll_micro_sec (s : ClockState) (now : Nat) :
    (roll_segment_if_needed s now).micro_sec = s.micro_sec :=
  congrArg CoreView.micro_sec (coreView_roll s now)

theorem roll_screen_breaks_enabled (s : ClockState) (now : Nat) :
    (roll_segment_if_needed s now).screen_breaks_enabled =
      s.screen_breaks_enabled :=
  congrArg CoreView.screen_breaks_enabled (coreView_roll s now)

theorem roll_work_elapsed_sec (s : ClockState) (now : Nat) :
    (roll_segment_if_needed s now).work_elapsed_sec = s.work_elapsed_sec :=
  congrArg CoreView.work_elapsed_sec (coreView_roll s now)

attribute [simp] roll_mode roll_remaining roll_running roll_finished
  roll_completed_units roll_session_goal roll_profile roll_microbreak_active
  roll_microbreak_remaining roll_after_micro roll_pre_lunch_mode
  roll_pre_lunch_remaining roll_pre_lunch_was_running
  roll_reminded_this_focus roll_remind_at roll_total_open_sec
  roll_paused_sec roll_microbreak_sec roll_focus_work_sec roll_focus_min
  roll_break_min roll_micro_sec roll_screen_breaks_enabled
  roll_work_elapsed_sec

/-- C1 (amended): after `apply_settings`, if the call was made while neither
running nor in a microbreak, `remaining` equals the nominal duration of the
unchanged current mode under the new settings — `focus_min * 60` in focus
mode and `break_min * 60` in break **and lunch** modes (the source treats
every non-focus mode with the break duration); if the call was made while
running or in a microbreak, `remaining` is unchanged. -/
theorem apply_settings_remaining_update (s : ClockState)
    (f b m g u : Int) (e : Bool) :
    (s.running = false ∧ s.microbreak_active = false →
      (apply_settings s f b m g u e).remaining =
        (if s.mode = "focus" then f * 60 else b * 60) ∧
      (apply_settings s f b m g u e).mode = s.mode) ∧
    (s.running = true ∨ s.microbreak_active = true →
      (apply_settings s f b m g u e).remaining = s.remaining) := by
  unfold apply_settings
  constructor
  · rintro ⟨h1, h2⟩
    simp [h1, h2]
  · rintro (h | h) <;> simp [h]

/-- Witness for C1: a concrete paused focus-mode state, with the theorem's
hypotheses discharged. -/
theorem apply_settings_remaining_update_w :
    (apply_settings initState 30 5 60 7 1 true).remaining =
      (if initState.mode = "focus" then 30 * 60 else 5 * 60) ∧
    (apply_settings initState 30 5 60 7 1 true).mode = initState.mode :=
  (apply_settings_remaining_update initState 30 5 60 7 1 true).1 ⟨rfl, rfl⟩

/-- C1 counterexample: in lunch mode, paused and with no microbreak,
`apply_settings` sets `remaining` to `break_min * 60 = 600`, not to the
3600 the claim states for lunch mode. -/
theorem apply_settings_lunch_cex :
    ({ initState with mode := "lunch" } : ClockState).running = false ∧
    ({ initState with mode := "lunch" } : ClockState).microbreak_active
      = false ∧
    ({ initState with mode := "lunch" } : ClockState).mode = "lunch" ∧
    (apply_settings { initState with mode := "lunch" }
      50 10 60 7 1 true).remaining = 600 ∧
    (600 : Int) ≠ 3600 := by
  refine ⟨rfl, rfl, rfl, ?_, by decide⟩
  rfl

/-- C9: `on_pause_count_tick` increments `paused_sec` by exactly one iff
the state is not running, not in a microbreak and not finished, and is the
identity otherwise; in both cases no other field changes (stated as equality
of whole states). -/
theorem on_pause_count_tick_spec (s : ClockState) :
    (s.running = false ∧ s.microbreak_active = false ∧ s.finished = false →
      on_pause_count_tick s = { s with paused_sec := s.paused_sec + 1 }) ∧
    (s.running = true ∨ s.microbreak_active = true ∨ s.finished = true →
      on_pause_count_tick s = s) := by
  unfold on_pause_count_tick
  constructor
  · rintro ⟨h1, h2, h3⟩
    simp [h1, h2, h3]
  · rintro (h | h | h) <;> simp [h]

/-- Witness for C9: the initial state is paused, not in a microbreak and not
finished, so its pause tick adds one paused second. -/
theorem on_pause_count_tick_spec_w :
    on_pause_count_tick initState =
      { initState with paused_sec := initState.paused_sec + 1 } :=
  (on_pause_count_tick_spec initState).1 ⟨rfl, rfl, rfl⟩

/-- C10: `apply_settings` never modifies `reminded_this_focus` (for any
arguments and any state, including when it resets `remaining`), and only
`switch_to_focus` clears that set. -/
theorem apply_settings_reminded_frame (s : ClockState)
    (f b m g u : Int) (e : Bool) (now : Nat) :
    (apply_settings s f b m g u e).reminded_this_focus =
      s.reminded_this_focus ∧
    (switch_to_focus s now).reminded_this_focus = ∅ := by
  constructor
  · simp only [apply_settings]
    split <;> rfl
  · unfold switch_to_focus
    rw [roll_reminded_this_focus]

/-- C2: from a study-profile state with `completed_units = session_goal - 1`,
`finish_focus_unit` (for either value of the microbreak flag) reaches the
goal: `completed_units = session_goal`, `finished`, not running, the
microbreak overlay cleared, and the mode unchanged (no transition to break,
no microbreak started). -/
theorem finish_focus_unit_goal (s : ClockState) (u : Bool) (now : Nat)
    (hp : s.profile = "study") (hc : s.completed_units = s.session_goal - 1) :
    (finish_focus_unit s u now).completed_units = s.session_goal ∧
    (finish_focus_unit s u now).finished = true ∧
    (finish_focus_unit s u now).running = false ∧
    (finish_focus_unit s u now).microbreak_active = false ∧
    (finish_focus_unit s u now).microbreak_remaining = 0 ∧
    (finish_focus_unit s u now).after_micro = "" ∧
    (finish_focus_unit s u now).mode = s.mode := by
  have hge : s.session_goal ≤ s.completed_units + 1 := by omega
  simp only [finish_focus_unit, mark_finished, ge_iff_le]
  simp [hp, hge]
  omega

/-- Witness for C2: one unit before a goal of 7, in the default state. -/
theorem finish_focus_unit_goal_w :
    (finish_focus_unit
        { initState with completed_units := 6 } true 0).completed_units =
      ({ initState with completed_units := 6 } : ClockState).session_goal ∧
    (finish_focus_unit { initState with completed_units := 6 } true 0).finished
      = true ∧
    (finish_focus_unit { initState with completed_units := 6 } true 0).running
      = false ∧
    (finish_focus_unit
        { initState with completed_units := 6 } true 0).microbreak_active
      = false ∧
    (finish_focus_unit
        { initState with completed_units := 6 } true 0).microbreak_remaining
      = 0 ∧
    (finish_focus_unit
        { initState with completed_units := 6 } true 0).after_micro = "" ∧
    (finish_focus_unit { initState with completed_units := 6 } true 0).mode =
      ({ initState with completed_units := 6 } : ClockState).mode :=
  finish_focus_unit_goal { initState with completed_units := 6 } true 0
    rfl (by decide)

/-- C3: `rewind_phase` in focus mode (study profile, not finished, no
microbreak), with `elapsed = focus_min * 60 - remaining`: past the
10-second threshold it restarts the phase and keeps `completed_units`;
within the threshold it restarts the phase when `completed_units = 0`, and
otherwise decrements `completed_units` and switches to break at the full
break duration. -/
theorem rewind_phase_focus_spec (s : ClockState) (now : Nat)
    (hp : s.profile = "study") (hf : s.finished = false)
    (hm : s.microbreak_active = false) (hmode : s.mode = "focus") :
    (s.focus_min * 60 - s.remaining > 10 →
      (rewind_phase s now).remaining = s.focus_min * 60 ∧
      (rewind_phase s now).completed_units = s.completed_units) ∧
    (s.focus_min * 60 - s.remaining ≤ 10 → s.completed_units = 0 →
      (rewind_phase s now).remaining = s.focus_min * 60 ∧
      (rewind_phase s now).completed_units = 0) ∧
    (s.focus_min * 60 - s.remaining ≤ 10 → s.completed_units > 0 →
      (rewind_phase s now).completed_units = s.completed_units - 1 ∧
      (rewind_phase s now).mode = "break" ∧
      (rewind_phase s now).remaining = s.break_min * 60) := by
  refine ⟨fun h => ?_, fun h h0 => ?_, fun h h0 => ?_⟩
  · have hmax : max 0 (s.focus_min * 60 - s.remaining) > 10 := by omega
    simp [rewind_phase, hp, hf, hm, hmode, hmax]
  · have hmax : ¬ max 0 (s.focus_min * 60 - s.remaining) > 10 := by omega
    simp [rewind_phase, hp, hf, hm, hmode, hmax, h0]
  · have hmax : ¬ max 0 (s.focus_min * 60 - s.remaining) > 10 := by omega
    have h0' : s.completed_units ≠ 0 := by omega
    simp [rewind_phase, switch_to_break, hp, hf, hm, hmode, hmax, h0']

/-- Witness for C3: default configuration, five seconds into focus with
three completed units — rewind goes back to a break and drops one unit. -/
theorem rewind_phase_focus_spec_w :
    (rewind_phase
        { initState with completed_units := 3, remaining := 2995 }
        0).completed_units =
      ({ initState with completed_units := 3, remaining := 2995 } :
        ClockState).completed_units - 1 ∧
    (rewind_phase { initState with completed_units := 3, remaining := 2995 }
      0).mode = "break" ∧
    (rewind_phase { initState with completed_units := 3, remaining := 2995 }
      0).remaining =
      ({ initState with completed_units := 3, remaining := 2995 } :
        ClockState).break_min * 60 :=
  (rewind_phase_focus_spec
      { initState with completed_units := 3, remaining := 2995 } 0
      rfl rfl rfl rfl).2.2 (by decide) (by decide)

/-- C4: a tick during an active microbreak (study profile, running, not
finished, more than one microbreak second left) freezes `remaining`, `mode`
and `completed_units`, adds exactly one to `total_open_sec` and
`microbreak_sec`, and subtracts exactly one from `microbreak_remaining`,
staying inside the microbreak. -/
theorem on_tick_microbreak_frame (s : ClockState) (now : Nat)
    (hp : s.profile = "study") (hr : s.running = true)
    (hf : s.finished = false) (hm : s.microbreak_active = true)
    (hmr : s.microbreak_remaining > 1) :
    (on_tick s now).remaining = s.remaining ∧
    (on_tick s now).mode = s.mode ∧
    (on_tick s now).completed_units = s.completed_units ∧
    (on_tick s now).total_open_sec = s.total_open_sec + 1 ∧
    (on_tick s now).microbreak_sec = s.microbreak_sec + 1 ∧
    (on_tick s now).microbreak_remaining = s.microbreak_remaining - 1 ∧
    (on_tick s now).microbreak_active = true := by
  have hnle : ¬ (s.microbreak_remaining - 1 ≤ 0) := by omega
  simp [on_tick, hp, hr, hf, hm, hnle]

/-- Witness for C4: default state, running, inside a 60-second microbreak. -/
theorem on_tick_microbreak_frame_w :
    (on_tick
        { initState with
            running := true, microbreak_active := true,
            microbreak_remaining := 60 } 0).remaining =
      ({ initState with
          running := true, microbreak_active := true,
          microbreak_remaining := 60 } : ClockState).remaining ∧
    (on_tick
        { initState with
            running := true, microbreak_active := true,
            microbreak_remaining := 60 } 0).mode =
      ({ initState with
          running := true, microbreak_active := true,
          microbreak_remaining := 60 } : ClockState).mode ∧
    (on_tick
        { initState with
            running := true, microbreak_active := true,
            microbreak_remaining := 60 } 0).completed_units =
      ({ initState with
          running := true, microbreak_active := true,
          microbreak_remaining := 60 } : ClockState).completed_units ∧
    (on_tick
        { initState with
            running := true, microbreak_active := true,
            microbreak_remaining := 60 } 0).total_open_sec =
      ({ initState with
          running := true, microbreak_active := true,
          microbreak_remaining := 60 } : ClockState).total_open_sec + 1 ∧
    (on_tick
        { initState with
            running := true, microbreak_active := true,
            microbreak_remaining := 60 } 0).microbreak_sec =
      ({ initState with
          running := true, microbreak_active := true,
          microbreak_remaining := 60 } : ClockState).microbreak_sec + 1 ∧
    (on_tick
        { initState with
            running := true, microbreak_active := true,
            microbreak_remaining := 60 } 0).microbreak_remaining =
      ({ initState with
          running := true, microbreak_active := true,
          microbreak_remaining := 60 } : ClockState).microbreak_remaining
        - 1 ∧
    (on_tick
        { initState with
            running := true, microbreak_active := true,
            microbreak_remaining := 60 } 0).microbreak_active = true :=
  on_tick_microbreak_frame
    { initState with
        running := true, microbreak_active := true,
        microbreak_remaining := 60 } 0 rfl rfl rfl rfl (by decide)

/-- C6: with microbreaks disabled (`screen_breaks_enabled = false` or
`micro_sec ≤ 0`), `start_microbreak` leaves `microbreak_active` false,
clears `after_micro`, and immediately performs the continuation: `go_break`
switches to break at the full break duration, `go_focus` switches to focus
at the full focus duration, and `resume_focus` leaves mode and remaining
unchanged. -/
theorem end_microbreak_overlay (s : ClockState) (now : Nat) :
    (end_microbreak s now).microbreak_active = false ∧
    (end_microbreak s now).microbreak_remaining = 0 ∧
    (end_microbreak s now).after_micro = "" := by
  simp only [end_microbreak]
  refine ⟨?_, ?_, ?_⟩ <;>
    simp [switch_to_break, switch_to_focus, apply_ite ClockState.microbreak_active,
      apply_ite ClockState.microbreak_remaining, apply_ite ClockState.after_micro]

theorem start_microbreak_disabled (s : ClockState) (a : String) (now : Nat)
    (hd : s.screen_breaks_enabled = false ∨ s.micro_sec ≤ 0) :
    (start_microbreak s a now).microbreak_active = false ∧
    (start_microbreak s a now).after_micro = "" ∧
    (a = "go_break" →
      (start_microbreak s a now).mode = "break" ∧
      (start_microbreak s a now).remaining = s.break_min * 60) ∧
    (a = "go_focus" →
      (start_microbreak s a now).mode = "focus" ∧
      (start_microbreak s a now).remaining = s.focus_min * 60) ∧
    (a = "resume_focus" →
      (start_microbreak s a now).mode = s.mode ∧
      (start_microbreak s a now).remaining = s.remaining) := by
  have hcond : s.micro_sec ≤ 0 ∨ ¬ s.screen_breaks_enabled = true := by
    rcases hd with h | h
    · right; simp [h]
    · left; exact h
  have he : start_microbreak s a now =
      end_microbreak { s with after_micro := a } now := by
    rcases hcond with h | h <;> simp [start_microbreak, h]
  obtain ⟨hma, -, ham⟩ := end_microbreak_overlay { s with after_micro := a } now
  rw [he]
  refine ⟨hma, ham, fun ha => ?_, fun ha => ?_, fun ha => ?_⟩ <;>
    subst ha <;>
    simp [end_microbreak, switch_to_break, switch_to_focus]

/-- Witness for C6: microbreaks disabled by the checkbox, continuation
`go_break` from the default state. -/
theorem start_microbreak_disabled_w :
    (start_microbreak { initState with screen_breaks_enabled := false }
      "go_break" 0).mode = "break" ∧
    (start_microbreak { initState with screen_breaks_enabled := false }
      "go_break" 0).remaining =
      ({ initState with screen_breaks_enabled := false } :
        ClockState).break_min * 60 :=
  (start_microbreak_disabled
    { initState with screen_breaks_enabled := false } "go_break" 0
    (Or.inl rfl)).2.2.1 rfl

/-!
Lunch round trip (C5): invariant of a running lunch countdown and the
iteration of `on_tick`.
-/

/-- `k` consecutive seconds of `on_tick`, every call at wall time `now`. -/
def tick_iter (now : Nat) : Nat → ClockState → ClockState
  | 0, s => s
  | k + 1, s => tick_iter now k (on_tick s now)

theorem tick_iter_succ_last (now : Nat) (k : Nat) (s : ClockState) :
    tick_iter now (k + 1) s = on_tick (tick_iter now k s) now := by
  induction k generalizing s with
  | zero => rfl
  | succ k ih =>
    show tick_iter now (k + 1) (on_tick s now) = _
    rw [ih]
    rfl

/-- The state of an in-flight lunch countdown started from `s0`: `n` seconds
left, running, no overlay, and the pre-lunch snapshot of `s0` intact. -/
def lunch_inv (s0 u : ClockState) (n : Int) : Prop :=
  u.profile = "study" ∧ u.finished = false ∧ u.running = true ∧
  u.microbreak_active = false ∧ u.mode = "lunch" ∧ u.remaining = n ∧
  u.pre_lunch_mode = s0.mode ∧ u.pre_lunch_remaining = s0.remaining ∧
  u.pre_lunch_was_running = s0.running ∧
  u.completed_units = s0.completed_units

theorem lunch_inv_tick (s0 u : ClockState) (n : Int) (now : Nat)
    (h : lunch_inv s0 u n) (hn : 2 ≤ n) :
    lunch_inv s0 (on_tick u now) (n - 1) := by
  obtain ⟨hp, hf, hr, hm, hmode, hrem, h1, h2, h3, h4⟩ := h
  have hpos : ¬ (n - 1 ≤ 0) := by omega
  unfold lunch_inv
  simp [on_tick, hp, hf, hr, hm, hmode, hrem, h1, h2, h3, h4, hpos]

theorem lunch_inv_restore (s0 u : ClockState) (now : Nat)
    (h : lunch_inv s0 u 1) :
    (on_tick u now).mode = s0.mode ∧
    (on_tick u now).remaining = s0.remaining ∧
    (on_tick u now).running = s0.running ∧
    (on_tick u now).completed_units = s0.completed_units := by
  obtain ⟨hp, hf, hr, hm, hmode, hrem, h1, h2, h3, h4⟩ := h
  simp [on_tick, hp, hf, hr, hm, hmode, hrem, h1, h2, h3, h4]

theorem lunch_inv_tick_iter (s0 : ClockState) (now : Nat) :
    ∀ (k : Nat) (u : ClockState) (n : Int), lunch_inv s0 u n →
      (k : Int) + 1 ≤ n → lunch_inv s0 (tick_iter now k u) (n - k) := by
  intro k
  induction k with
  | zero =>
    intro u n h _
    simpa using h
  | succ k ih =>
    intro u n h hk
    have h1 : lunch_inv s0 (on_tick u now) (n - 1) :=
      lunch_inv_tick s0 u n now h (by omega)
    have h2 : lunch_inv s0 (tick_iter now k (on_tick u now)) (n - 1 - k) :=
      ih (on_tick u now) (n - 1) h1 (by omega)
    have harith : n - 1 - (k : Int) = n - ((k : Int) + 1) := by ring
    rw [harith] at h2
    have hcast : ((k + 1 : Nat) : Int) = (k : Int) + 1 := by push_cast; ring
    show lunch_inv s0 (tick_iter now k (on_tick u now)) (n - ((k + 1 : Nat) : Int))
    rw [hcast]
    exact h2

/-- C5: from a study-profile state `s` that is not finished,
`start_lunch_break` snapshots `(mode, remaining, running)` into the
pre-lunch fields, clears the microbreak overlay and forces
`mode = "lunch"`, `remaining = 3600`, `running = true`; after exactly 3600
further ticks (the lunch running down to 0 while still in lunch mode), the
snapshot is restored verbatim and `completed_units` is unchanged. -/
theorem start_lunch_break_roundtrip (s : ClockState) (now now2 : Nat)
    (hp : s.profile = "study") (hf : s.finished = false) :
    (start_lunch_break s now).pre_lunch_mode = s.mode ∧
    (start_lunch_break s now).pre_lunch_remaining = s.remaining ∧
    (start_lunch_break s now).pre_lunch_was_running = s.running ∧
    (start_lunch_break s now).microbreak_active = false ∧
    (start_lunch_break s now).mode = "lunch" ∧
    (start_lunch_break s now).remaining = 3600 ∧
    (start_lunch_break s now).running = true ∧
    (tick_iter now2 3600 (start_lunch_break s now)).mode = s.mode ∧
    (tick_iter now2 3600 (start_lunch_break s now)).remaining = s.remaining ∧
    (tick_iter now2 3600 (start_lunch_break s now)).running = s.running ∧
    (tick_iter now2 3600 (start_lunch_break s now)).completed_units =
      s.completed_units := by
  have hstart : lunch_inv s (start_lunch_break s now) 3600 := by
    unfold lunch_inv
    simp [start_lunch_break, hf, hp]
  obtain ⟨h1, h2, h3, h4, h5, h6, h7, h8, h9, h10⟩ := hstart
  have hmost : lunch_inv s (tick_iter now2 3599 (start_lunch_break s now)) 1 := by
    have := lunch_inv_tick_iter s now2 3599 (start_lunch_break s now) 3600
      ⟨h1, h2, h3, h4, h5, h6, h7, h8, h9, h10⟩ (by norm_num)
    norm_num at this
    exact this
  have hlast := lunch_inv_restore s _ now2 hmost
  have hsplit : (3600 : Nat) = 3599 + 1 := by norm_num
  rw [hsplit, tick_iter_succ_last]
  exact ⟨h7, h8, h9, h4, h5, h6, h3, hlast.1, hlast.2.1, hlast.2.2.1,
    hlast.2.2.2⟩

/-- Witness for C5: the default state (paused, in focus, nothing
completed). -/
theorem start_lunch_break_roundtrip_w :
    (start_lunch_break initState 0).pre_lunch_mode = initState.mode ∧
    (start_lunch_break initState 0).pre_lunch_remaining =
      initState.remaining ∧
    (start_lunch_break initState 0).pre_lunch_was_running =
      initState.running ∧
    (start_lunch_break initState 0).microbreak_active = false ∧
    (start_lunch_break initState 0).mode = "lunch" ∧
    (start_lunch_break initState 0).remaining = 3600 ∧
    (start_lunch_break initState 0).running = true ∧
    (tick_iter 1 3600 (start_lunch_break initState 0)).mode =
      initState.mode ∧
    (tick_iter 1 3600 (start_lunch_break initState 0)).remaining =
      initState.remaining ∧
    (tick_iter 1 3600 (start_lunch_break initState 0)).running =
      initState.running ∧
    (tick_iter 1 3600 (start_lunch_break initState 0)).completed_units =
      initState.completed_units :=
  start_lunch_break_roundtrip initState 0 1 rfl rfl

/-!
Reachability (C7, C8): one step is a single public operation; a step at
wall time `now` is allowed whenever `now` is not before the time of the
previous step (the wall clock is monotone).
-/

inductive Step : ClockState → Nat → ClockState → Prop where
  | tick (s : ClockState) (now : Nat) : Step s now (on_tick s now)
  | pause_tick (s : ClockState) (now : Nat) : Step s now (on_pause_count_tick s)
  | user_start (s : ClockState) (now : Nat) : Step s now (start s now)
  | user_pause (s : ClockState) (now : Nat) : Step s now (pause s now)
  | skip (s : ClockState) (now : Nat) : Step s now (skip_phase s now)
  | rewind (s : ClockState) (now : Nat) : Step s now (rewind_phase s now)
  | reset (s : ClockState) (now : Nat) : Step s now (reset_all s)
  | settings (s : ClockState) (now : Nat) (f b m g u : Int) (e : Bool) :
      Step s now (apply_settings s f b m g u e)
  | lunch (s : ClockState) (now : Nat) : Step s now (start_lunch_break s now)

inductive ReachableAt : ClockState → Nat → Prop where
  | init : ReachableAt initState 0
  | step (s : ClockState) (c : Nat) (s2 : ClockState) (now : Nat) :
      ReachableAt s c → c ≤ now → Step s now s2 → ReachableAt s2 now

/-- Steps restricted to the arguments the settings dialog can actually
produce for the session goal (its spin box has range 1..50, so `1 ≤ g`). -/
inductive StepG : ClockState → Nat → ClockState → Prop where
  | tick (s : ClockState) (now : Nat) : StepG s now (on_tick s now)
  | pause_tick (s : ClockState) (now : Nat) :
      StepG s now (on_pause_count_tick s)
  | user_start (s : ClockState) (now : Nat) : StepG s now (start s now)
  | user_pause (s : ClockState) (now : Nat) : StepG s now (pause s now)
  | skip (s : ClockState) (now : Nat) : StepG s now (skip_phase s now)
  | rewind (s : ClockState) (now : Nat) : StepG s now (rewind_phase s now)
  | reset (s : ClockState) (now : Nat) : StepG s now (reset_all s)
  | settings (s : ClockState) (now : Nat) (f b m g u : Int) (e : Bool)
      (hg : 1 ≤ g) : StepG s now (apply_settings s f b m g u e)
  | lunch (s : ClockState) (now : Nat) : StepG s now (start_lunch_break s now)

inductive ReachableGAt : ClockState → Nat → Prop where
  | init : ReachableGAt initState 0
  | step (s : ClockState) (c : Nat) (s2 : ClockState) (now : Nat) :
      ReachableGAt s c → c ≤ now → StepG s now s2 → ReachableGAt s2 now

/-- The inductive invariant behind C7. -/
def InvC7 (s : ClockState) : Prop :=
  s.profile = "study" ∧ 1 ≤ s.session_goal ∧ 0 ≤ s.completed_units ∧
  s.completed_units ≤ s.session_goal ∧
  (s.finished = true → s.running = false) ∧
  (s.finished = false → s.completed_units < s.session_goal)

theorem invC7_congr (s t : ClockState) (h : InvC7 s)
    (e1 : t.profile = s.profile) (e2 : t.session_goal = s.session_goal)
    (e3 : t.completed_units = s.completed_units)
    (e4 : t.finished = s.finished) (e5 : t.running = s.running) :
    InvC7 t := by
  unfold InvC7 at h ⊢
  rw [e1, e2, e3, e4, e5]
  exact h

theorem end_microbreak_profile (s : ClockState) (now : Nat) :
    (end_microbreak s now).profile = s.profile := by
  simp [end_microbreak, switch_to_break, switch_to_focus,
    apply_ite ClockState.profile]

theorem end_microbreak_session_goal (s : ClockState) (now : Nat) :
    (end_microbreak s now).session_goal = s.session_goal := by
  simp [end_microbreak, switch_to_break, switch_to_focus,
    apply_ite ClockState.session_goal]

theorem end_microbreak_completed_units (s : ClockState) (now : Nat) :
    (end_microbreak s now).completed_units = s.completed_units := by
  simp [end_microbreak, switch_to_break, switch_to_focus,
    apply_ite ClockState.completed_units]

theorem end_microbreak_finished (s : ClockState) (now : Nat) :
    (end_microbreak s now).finished = s.finished := by
  simp [end_microbreak, switch_to_break, switch_to_focus,
    apply_ite ClockState.finished]

theorem end_microbreak_running (s : ClockState) (now : Nat) :
    (end_microbreak s now).running = s.running := by
  simp [end_microbreak, switch_to_break, switch_to_focus,
    apply_ite ClockState.running]

theorem start_microbreak_profile (s : ClockState) (am : String) (now : Nat) :
    (start_microbreak s am now).profile = s.profile := by
  unfold start_microbreak
  split
  · rw [end_microbreak_profile]
  · simp

theorem start_microbreak_session_goal (s : ClockState) (am : String)
    (now : Nat) :
    (start_microbreak s am now).session_goal = s.session_goal := by
  unfold start_microbreak
  split
  · rw [end_microbreak_session_goal]
  · simp

theorem start_microbreak_completed_units (s : ClockState) (am : String)
    (now : Nat) :
    (start_microbreak s am now).completed_units = s.completed_units := by
  unfold start_microbreak
  split
  · rw [end_microbreak_completed_units]
  · simp

theorem start_microbreak_finished (s : ClockState) (am : String) (now : Nat) :
    (start_microbreak s am now).finished = s.finished := by
  unfold start_microbreak
  split
  · rw [end_microbreak_finished]
  · simp

theorem start_microbreak_running (s : ClockState) (am : String) (now : Nat) :
    (start_microbreak s am now).running = s.running := by
  unfold start_microbreak
  split
  · rw [end_microbreak_running]
  · simp

theorem invC7_end_microbreak (s : ClockState) (now : Nat) (h : InvC7 s) :
    InvC7 (end_microbreak s now) :=
  invC7_congr s _ h (end_microbreak_profile s now)
    (end_microbreak_session_goal s now)
    (end_microbreak_completed_units s now) (end_microbreak_finished s now)
    (end_microbreak_running s now)

theorem invC7_start_microbreak (s : ClockState) (am : String) (now : Nat)
    (h : InvC7 s) : InvC7 (start_microbreak s am now) :=
  invC7_congr s _ h (start_microbreak_profile s am now)
    (start_microbreak_session_goal s am now)
    (start_microbreak_completed_units s am now)
    (start_microbreak_finished s am now) (start_microbreak_running s am now)

theorem invC7_finish_focus_unit (s : ClockState) (u : Bool) (now : Nat)
    (h : InvC7 s) (hfin : s.finished = false) :
    InvC7 (finish_focus_unit s u now) := by
  obtain ⟨hp, hg, h0, hle, hfr, hlt⟩ := h
  have hc : s.completed_units < s.session_goal := hlt hfin
  unfold finish_focus_unit
  by_cases hge : s.completed_units + 1 ≥ s.session_goal
  · have hEq : s.completed_units + 1 = s.session_goal := by omega
    rw [if_pos (by simpa using hge)]
    unfold InvC7 mark_finished
    rw [if_neg (by simp [hp])]
    refine ⟨by simp [hp], by simpa using hg, by simp; omega, by simp; omega,
      by simp, by simp⟩
  · rw [if_neg (by simpa using hge)]
    have hmid : InvC7 { s with completed_units := s.completed_units + 1 } := by
      unfold InvC7
      refine ⟨hp, hg, ?_, ?_, hfr, fun _ => ?_⟩
      · show 0 ≤ s.completed_units + 1
        omega
      · show s.completed_units + 1 ≤ s.session_goal
        omega
      · show s.completed_units + 1 < s.session_goal
        omega
    split
    · exact invC7_start_microbreak _ "go_break" now hmid
    · exact invC7_congr _ _ hmid (by simp [switch_to_break])
        (by simp [switch_to_break]) (by simp [switch_to_break])
        (by simp [switch_to_break]) (by simp [switch_to_break])

theorem invC7_build (t : ClockState) (hp : t.profile = "study")
    (hg : 1 ≤ t.session_goal) (h0 : 0 ≤ t.completed_units)
    (hle : t.completed_units ≤ t.session_goal)
    (hfr : t.finished = true → t.running = false)
    (hlt : t.finished = false → t.completed_units < t.session_goal) :
    InvC7 t :=
  ⟨hp, hg, h0, hle, hfr, hlt⟩

theorem invC7_on_tick (s : ClockState) (now : Nat) (h : InvC7 s) :
    InvC7 (on_tick s now) := by
  have hInv := h
  obtain ⟨hp, hg, h0, hle, hfr, hlt⟩ := h
  unfold on_tick
  split
  · exact hInv
  next hguard =>
    have hfin : s.finished = false := by
      cases hs : s.finished
      · rfl
      · exact absurd (Or.inl hs) hguard
    have hrun : s.running = true := by
      cases hs : s.running
      · exact absurd (Or.inr ⟨by simp [hs], hp⟩) hguard
      · rfl
    set r := roll_segment_if_needed s now with hr
    have f1 : r.profile = "study" := by rw [hr, roll_profile]; exact hp
    have f2 : r.running = true := by rw [hr, roll_running]; exact hrun
    have f3 : r.finished = false := by rw [hr, roll_finished]; exact hfin
    have f4 : r.mode = s.mode := by rw [hr, roll_mode]
    have f5 : r.remaining = s.remaining := by rw [hr, roll_remaining]
    have f6 : r.remind_at = s.remind_at := by rw [hr, roll_remind_at]
    have f7 : r.reminded_this_focus = s.reminded_this_focus := by
      rw [hr, roll_reminded_this_focus]
    have f8 : r.microbreak_active = s.microbreak_active := by
      rw [hr, roll_microbreak_active]
    have f9 : r.microbreak_remaining = s.microbreak_remaining := by
      rw [hr, roll_microbreak_remaining]
    have f10 : r.completed_units = s.completed_units := by
      rw [hr, roll_completed_units]
    have f11 : r.session_goal = s.session_goal := by
      rw [hr, roll_session_goal]
    clear_value r
    simp only [f1, f2, f3, f4, f5, f6, f7, f8, f9, f10, f11,
      String.reduceEq, reduceIte]
    by_cases hmb : s.microbreak_active = true
    · rw [if_pos hmb]
      by_cases hend : s.microbreak_remaining - 1 ≤ 0
      · rw [if_pos hend]
        apply invC7_end_microbreak
        exact ⟨rfl, hg, h0, hle, by simp, fun _ => hlt hfin⟩
      · rw [if_neg hend]
        exact ⟨rfl, hg, h0, hle, by simp, fun _ => hlt hfin⟩
    · rw [if_neg hmb]
      by_cases hmode : s.mode = "focus"
      · simp only [hmode, String.reduceEq, reduceIte, true_and]
        by_cases hrm : s.remaining - 1 ∈ s.remind_at ∧
            s.remaining - 1 ∉ s.reminded_this_focus
        · rw [if_pos hrm]
          by_cases hth : s.remaining - 1 = 40 * 60 ∨ s.remaining - 1 = 20 * 60
          · rw [if_pos hth]
            apply invC7_start_microbreak
            exact ⟨rfl, hg, h0, hle, by simp, fun _ => hlt hfin⟩
          · rw [if_neg hth]
            by_cases hz : s.remaining - 1 = 0
            · rw [if_pos hz]
              apply invC7_finish_focus_unit _ _ _ ?_ rfl
              exact ⟨rfl, hg, h0, hle, by simp, fun _ => hlt hfin⟩
            · rw [if_neg hz]
              by_cases hle0 : s.remaining - 1 ≤ 0
              · rw [if_pos hle0]
                apply invC7_finish_focus_unit _ _ _ ?_ rfl
                exact ⟨rfl, hg, h0, hle, by simp, fun _ => hlt hfin⟩
              · rw [if_neg hle0]
                exact ⟨rfl, hg, h0, hle, by simp, fun _ => hlt hfin⟩
        · rw [if_neg hrm]
          by_cases hle0 : s.remaining - 1 ≤ 0
          · rw [if_pos hle0]
            apply invC7_finish_focus_unit _ _ _ ?_ rfl
            exact ⟨rfl, hg, h0, hle, by simp, fun _ => hlt hfin⟩
          · rw [if_neg hle0]
            exact ⟨rfl, hg, h0, hle, by simp, fun _ => hlt hfin⟩
      · simp only [hmode, String.reduceEq, reduceIte, false_and, if_neg hmode]
        by_cases hle0 : s.remaining - 1 ≤ 0
        · rw [if_pos hle0]
          by_cases hlunch : s.mode = "lunch"
          · rw [if_pos hlunch]
            exact ⟨rfl, hg, h0, hle, by simp, fun _ => hlt hfin⟩
          · rw [if_neg hlunch]
            apply invC7_congr s _ hInv (by simp [switch_to_focus, hp])
              (by simp [switch_to_focus]) (by simp [switch_to_focus])
              (by simp [switch_to_focus, hfin])
              (by simp [switch_to_focus, hrun])
        · rw [if_neg hle0]
          exact ⟨rfl, hg, h0, hle, by simp, fun _ => hlt hfin⟩

theorem invC7_on_pause_count_tick (s : ClockState) (h : InvC7 s) :
    InvC7 (on_pause_count_tick s) := by
  unfold on_pause_count_tick
  split
  · exact invC7_congr s _ h rfl rfl rfl rfl rfl
  · exact h

theorem invC7_start (s : ClockState) (now : Nat) (h : InvC7 s) :
    InvC7 (start s now) := by
  obtain ⟨hp, hg, h0, hle, hfr, hlt⟩ := h
  unfold start
  split
  · exact ⟨hp, hg, h0, hle, hfr, hlt⟩
  next hnf =>
    have hfin : s.finished = false := by
      cases hs : s.finished
      · rfl
      · exact absurd hs hnf
    split
    · refine ⟨by simp [hp], by simp [hg], by simp [h0], by simp [hle],
        ?_, ?_⟩
      · intro hc
        simp [hfin] at hc
      · intro _
        simpa using hlt hfin
    · exact ⟨hp, hg, h0, hle, hfr, hlt⟩

theorem invC7_pause (s : ClockState) (now : Nat) (h : InvC7 s) :
    InvC7 (pause s now) := by
  obtain ⟨hp, hg, h0, hle, hfr, hlt⟩ := h
  unfold pause
  refine ⟨by simp [hp], by simp [hg], by simp [h0], by simp [hle],
    fun _ => by simp, ?_⟩
  intro hf
  simp at hf
  simpa using hlt hf

theorem invC7_skip_phase (s : ClockState) (now : Nat) (h : InvC7 s) :
    InvC7 (skip_phase s now) := by
  unfold skip_phase
  split
  · exact h
  split
  · exact h
  next hnf =>
    have hfin : s.finished = false := by
      cases hs : s.finished
      · rfl
      · exact absurd hs hnf
    split
    · exact invC7_end_microbreak s now h
    split
    · exact invC7_finish_focus_unit s false now h hfin
    · exact invC7_congr s _ h (by simp [switch_to_focus])
        (by simp [switch_to_focus]) (by simp [switch_to_focus])
        (by simp [switch_to_focus]) (by simp [switch_to_focus])

theorem invC7_rewind_phase (s : ClockState) (now : Nat) (h : InvC7 s) :
    InvC7 (rewind_phase s now) := by
  have hInv := h
  obtain ⟨hp, hg, h0, hle, hfr, hlt⟩ := h
  unfold rewind_phase
  split
  · exact hInv
  split
  · exact hInv
  next hnf =>
    have hfin : s.finished = false := by
      cases hs : s.finished
      · rfl
      · exact absurd hs hnf
    have hc : s.completed_units < s.session_goal := hlt hfin
    split
    · exact invC7_congr s _ hInv rfl rfl rfl rfl rfl
    split
    · -- focus
      split
      · exact invC7_congr s _ hInv rfl rfl rfl rfl rfl
      split
      · exact invC7_congr s _ hInv rfl rfl rfl rfl rfl
      next hc0 =>
        refine ⟨by simp [switch_to_break, hp], by simp [switch_to_break, hg],
          ?_, ?_, ?_, ?_⟩
        · simp [switch_to_break]
          omega
        · simp [switch_to_break]
          omega
        · intro hcc
          simp [switch_to_break, hfin] at hcc
        · intro _
          simp [switch_to_break]
          omega
    split
    · -- break
      split
      · exact invC7_congr s _ hInv rfl rfl rfl rfl rfl
      · exact invC7_congr s _ hInv (by simp [switch_to_focus])
          (by simp [switch_to_focus]) (by simp [switch_to_focus])
          (by simp [switch_to_focus]) (by simp [switch_to_focus])
    split
    · -- lunch
      split
      · exact invC7_congr s _ hInv rfl rfl rfl rfl rfl
      · refine ⟨hp, hg, h0, hle, ?_, fun _ => hc⟩
        intro hcc
        exact absurd hcc (by simp [hfin])
    · exact hInv

theorem invC7_reset_all (s : ClockState) (h : InvC7 s) :
    InvC7 (reset_all s) := by
  obtain ⟨hp, hg, h0, hle, hfr, hlt⟩ := h
  unfold reset_all
  split
  · exact ⟨hp, hg, h0, hle, fun _ => rfl, fun hf => hlt hf⟩
  · refine ⟨hp, hg, by simp, by simp; omega, by simp, ?_⟩
    intro _
    show (0 : Int) < s.session_goal
    omega

theorem invC7_apply_settings (s : ClockState) (f b m g u : Int) (e : Bool)
    (hg1 : 1 ≤ g) (h : InvC7 s) :
    InvC7 (apply_settings s f b m g u e) := by
  obtain ⟨hp, hg, h0, hle, hfr, hlt⟩ := h
  simp only [apply_settings]
  split <;>
    exact ⟨hp, hg1,
      by show (0 : Int) ≤ max 1 (min u g) - 1; omega,
      by show max 1 (min u g) - 1 ≤ g; omega,
      by simp,
      fun _ => by show max 1 (min u g) - 1 < g; omega⟩

theorem invC7_start_lunch_break (s : ClockState) (now : Nat) (h : InvC7 s) :
    InvC7 (start_lunch_break s now) := by
  obtain ⟨hp, hg, h0, hle, hfr, hlt⟩ := h
  unfold start_lunch_break
  split
  · exact ⟨hp, hg, h0, hle, hfr, hlt⟩
  next hnf =>
    have hfin : s.finished = false := by
      cases hs : s.finished
      · rfl
      · exact absurd hs hnf
    refine ⟨by simp [hp], by simp [hg], by simp [h0], by simp [hle], ?_, ?_⟩
    · intro hcc
      simp [hfin] at hcc
    · intro _
      simpa using hlt hfin

theorem invC7_init : InvC7 initState :=
  ⟨rfl, by decide, by decide, by decide, by decide, fun _ => by decide⟩

theorem reachableG_invC7 (s : ClockState) (c : Nat) (h : ReachableGAt s c) :
    InvC7 s := by
  induction h with
  | init => exact invC7_init
  | step s c s2 now hr hnow hstep ih =>
    cases hstep with
    | tick => exact invC7_on_tick s now ih
    | pause_tick => exact invC7_on_pause_count_tick s ih
    | user_start => exact invC7_start s now ih
    | user_pause => exact invC7_pause s now ih
    | skip => exact invC7_skip_phase s now ih
    | rewind => exact invC7_rewind_phase s now ih
    | reset => exact invC7_reset_all s ih
    | settings f b m g u e hg => exact invC7_apply_settings s f b m g u e hg ih
    | lunch => exact invC7_start_lunch_break s now ih

/-- C7 (amended): in every state reachable from the default state by the
public operations — with `apply_settings` restricted to session goals of at
least 1, as the settings dialog guarantees (spin box range 1..50) —
`0 ≤ completed_units ≤ session_goal` holds, and `finished` implies not
`running`. -/
theorem reachable_completed_bounds (s : ClockState) (c : Nat)
    (h : ReachableGAt s c) :
    0 ≤ s.completed_units ∧ s.completed_units ≤ s.session_goal ∧
    (s.finished = true → s.running = false) := by
  obtain ⟨-, -, h0, hle, hfr, -⟩ := reachableG_invC7 s c h
  exact ⟨h0, hle, hfr⟩

/-- Witness for C7: the initial state is reachable. -/
theorem reachable_completed_bounds_w :
    0 ≤ initState.completed_units ∧
    initState.completed_units ≤ initState.session_goal ∧
    (initState.finished = true → initState.running = false) :=
  reachable_completed_bounds initState 0 ReachableGAt.init

/-- C7 counterexample: the claim quantifies over every sequence of public
operations, but `apply_settings` does not validate the goal; a single
`apply_settings` call with goal `-1` reaches a state where
`completed_units = 0 > session_goal = -1`. -/
theorem reachable_completed_bounds_cex :
    ReachableAt (apply_settings initState 50 10 60 (-1) 1 true) 0 ∧
    ¬ ((apply_settings initState 50 10 60 (-1) 1 true).completed_units ≤
        (apply_settings initState 50 10 60 (-1) 1 true).session_goal) :=
  ⟨ReachableAt.step initState 0 _ 0 ReachableAt.init (Nat.le_refl 0)
    (Step.settings initState 0 50 10 60 (-1) 1 true), by decide⟩

/-!
Segment-log invariant (C8): the closed entries are adjacent (no gaps, no
overlaps) and time-ordered; the open segment, when present, starts exactly
where the last closed entry stopped, no later than the current wall time.
-/

def ModeInv (s : ClockState) : Prop :=
  s.mode ∈ (["focus", "break", "lunch"] : List String) ∧
  s.pre_lunch_mode ∈ (["focus", "break", "lunch"] : List String)

def seg_inv (s : ClockState) (c : Nat) : Prop :=
  List.Chain' (fun a b => a.stop = b.start) s.log ∧
  (∀ e ∈ s.log, e.start ≤ e.stop) ∧
  (match s.segment_start with
   | some t => t ≤ c ∧ s.segment_kind ≠ "" ∧ ∀ e ∈ s.log.getLast?, e.stop = t
   | none => s.log = [])

def Good (s : ClockState) (c : Nat) : Prop := ModeInv s ∧ seg_inv s c

theorem seg_inv_mono (s : ClockState) (c c' : Nat) (h : seg_inv s c)
    (hcc : c ≤ c') : seg_inv s c' := by
  obtain ⟨h1, h2, h3⟩ := h
  refine ⟨h1, h2, ?_⟩
  cases hs : s.segment_start with
  | none => simpa [hs] using h3
  | some t =>
    rw [hs] at h3
    exact ⟨le_trans h3.1 hcc, h3.2.1, h3.2.2⟩

theorem good_mono (s : ClockState) (c c' : Nat) (h : Good s c)
    (hcc : c ≤ c') : Good s c' :=
  ⟨h.1, seg_inv_mono s c c' h.2 hcc⟩

theorem good_congr (t r : ClockState) (hm : t.mode = r.mode)
    (hpm : t.pre_lunch_mode = r.pre_lunch_mode) (hl : t.log = r.log)
    (hk : t.segment_kind = r.segment_kind)
    (hs : t.segment_start = r.segment_start) (c : Nat) (h : Good r c) :
    Good t c := by
  obtain ⟨⟨hm1, hm2⟩, hch, hord, hmatch⟩ := h
  refine ⟨⟨hm ▸ hm1, hpm ▸ hm2⟩, ?_, ?_, ?_⟩
  · rw [hl]
    exact hch
  · rw [hl]
    exact hord
  · rw [hs, hl, hk]
    exact hmatch

theorem current_kind_ne_empty (s : ClockState) (h : ModeInv s) :
    current_kind s ≠ "" := by
  obtain ⟨hm, -⟩ := h
  unfold current_kind
  split
  · split <;> decide
  · split
    · decide
    · split
      · decide
      · simp only [List.mem_cons, List.not_mem_nil, or_false] at hm
        rcases hm with h | h | h <;> simp [h]

theorem good_roll (s : ClockState) (c now : Nat) (h : Good s c)
    (hc : c ≤ now) : Good (roll_segment_if_needed s now) now := by
  have hk := current_kind_ne_empty s h.1
  obtain ⟨⟨hm1, hm2⟩, hch, hord, hmatch⟩ := h
  cases hs : s.segment_start with
  | none =>
    have hlog : s.log = [] := by
      rw [hs] at hmatch
      exact hmatch
    have heq : roll_segment_if_needed s now =
        open_segment s (current_kind s) now := by
      unfold roll_segment_if_needed
      rw [hs]
    rw [heq]
    unfold open_segment
    refine ⟨⟨hm1, hm2⟩, ?_, ?_, ?_⟩
    · show List.Chain' _ s.log
      exact hch
    · show ∀ e ∈ s.log, _
      exact hord
    · show now ≤ now ∧ current_kind s ≠ "" ∧ ∀ e ∈ s.log.getLast?, _
      rw [hlog]
      exact ⟨le_refl now, hk, by simp⟩
  | some t =>
    rw [hs] at hmatch
    obtain ⟨htc, hke, hlast⟩ := hmatch
    by_cases hkc : current_kind s ≠ s.segment_kind
    · have hclose : close_segment s now =
          { s with
            log := s.log ++ [⟨s.segment_kind, t, now⟩]
            segment_kind := ""
            segment_start := none } := by
        unfold close_segment
        rw [hs]
        exact if_neg hke
      have heq : roll_segment_if_needed s now =
          open_segment (close_segment s now) (current_kind s) now := by
        unfold roll_segment_if_needed
        rw [hs]
        exact if_pos hkc
      rw [heq, hclose]
      unfold open_segment
      refine ⟨⟨hm1, hm2⟩, ?_, ?_, ?_⟩
      · show List.Chain' _ (s.log ++ [⟨s.segment_kind, t, now⟩])
        refine List.Chain'.append hch (List.chain'_singleton _) ?_
        intro x hx y hy
        simp at hy
        subst hy
        exact hlast x hx
      · show ∀ e ∈ s.log ++ [(⟨s.segment_kind, t, now⟩ : LogEntry)], _
        intro e he
        rcases List.mem_append.mp he with h1 | h1
        · exact hord e h1
        · simp at h1
          rw [h1]
          exact le_trans htc hc
      · show now ≤ now ∧ current_kind s ≠ "" ∧
          ∀ e ∈ (s.log ++ [(⟨s.segment_kind, t, now⟩ : LogEntry)]).getLast?, _
        refine ⟨le_refl now, hk, ?_⟩
        intro e he
        rw [List.getLast?_concat] at he
        simp at he
        subst he
        rfl
    · have heq : roll_segment_if_needed s now = s := by
        unfold roll_segment_if_needed
        rw [hs]
        exact if_neg hkc
      rw [heq]
      refine ⟨⟨hm1, hm2⟩, hch, hord, ?_⟩
      rw [hs]
      exact ⟨le_trans htc hc, hke, hlast⟩

theorem good_switch_to_break (s : ClockState) (c now : Nat) (h : Good s c)
    (hc : c ≤ now) : Good (switch_to_break s now) now := by
  unfold switch_to_break
  exact good_roll _ c now ⟨⟨by show ("break" : String) ∈ ["focus", "break", "lunch"]; decide, h.1.2⟩, h.2⟩ hc

theorem good_switch_to_focus (s : ClockState) (c now : Nat) (h : Good s c)
    (hc : c ≤ now) : Good (switch_to_focus s now) now := by
  unfold switch_to_focus
  exact good_roll _ c now ⟨⟨by show ("focus" : String) ∈ ["focus", "break", "lunch"]; decide, h.1.2⟩, h.2⟩ hc

theorem good_start_lunch_break (s : ClockState) (c now : Nat) (h : Good s c)
    (hc : c ≤ now) : Good (start_lunch_break s now) now := by
  unfold start_lunch_break
  split
  · exact good_mono s c now h hc
  · exact good_roll _ c now ⟨⟨by show ("lunch" : String) ∈ ["focus", "break", "lunch"]; decide, h.1.1⟩, h.2⟩ hc

theorem good_after_micro_clear (D : ClockState) (now : Nat)
    (hD : Good D now) :
    Good (roll_segment_if_needed { D with after_micro := "" } now) now :=
  good_roll _ now now (good_congr _ D rfl rfl rfl rfl rfl now hD)
    (le_refl now)

theorem good_end_microbreak (s : ClockState) (c now : Nat) (h : Good s c)
    (hc : c ≤ now) : Good (end_microbreak s now) now := by
  simp only [end_microbreak]
  split
  · exact good_after_micro_clear _ now
      ⟨⟨h.1.1, h.1.2⟩, seg_inv_mono s c now h.2 hc⟩
  split
  · exact good_after_micro_clear _ now
      (good_switch_to_break _ c now ⟨⟨h.1.1, h.1.2⟩, h.2⟩ hc)
  split
  · exact good_after_micro_clear _ now
      (good_switch_to_focus _ c now ⟨⟨h.1.1, h.1.2⟩, h.2⟩ hc)
  · exact good_after_micro_clear _ now
      ⟨⟨h.1.1, h.1.2⟩, seg_inv_mono s c now h.2 hc⟩

theorem good_start_microbreak (s : ClockState) (am : String) (c now : Nat)
    (h : Good s c) (hc : c ≤ now) : Good (start_microbreak s am now) now := by
  unfold start_microbreak
  split
  · exact good_end_microbreak _ c now ⟨⟨h.1.1, h.1.2⟩, h.2⟩ hc
  · exact good_roll _ c now ⟨⟨h.1.1, h.1.2⟩, h.2⟩ hc

theorem good_mark_finished (s : ClockState) (c : Nat) (h : Good s c) :
    Good (mark_finished s) c := by
  unfold mark_finished
  split
  · exact h
  · exact ⟨⟨h.1.1, h.1.2⟩, h.2⟩

theorem good_finish_focus_unit (s : ClockState) (u : Bool) (c now : Nat)
    (h : Good s c) (hc : c ≤ now) : Good (finish_focus_unit s u now) now := by
  simp only [finish_focus_unit]
  split
  · exact good_mono _ c now (good_mark_finished _ c ⟨⟨h.1.1, h.1.2⟩, h.2⟩) hc
  split
  · exact good_start_microbreak _ _ c now ⟨⟨h.1.1, h.1.2⟩, h.2⟩ hc
  · exact good_switch_to_break _ c now ⟨⟨h.1.1, h.1.2⟩, h.2⟩ hc

theorem good_on_pause_count_tick (s : ClockState) (c now : Nat)
    (h : Good s c) (hc : c ≤ now) : Good (on_pause_count_tick s) now := by
  unfold on_pause_count_tick
  split
  · exact good_congr _ s rfl rfl rfl rfl rfl now (good_mono s c now h hc)
  · exact good_mono s c now h hc

theorem good_start (s : ClockState) (c now : Nat) (h : Good s c)
    (hc : c ≤ now) : Good (start s now) now := by
  unfold start
  split
  · exact good_mono s c now h hc
  split
  · exact good_roll _ c now ⟨⟨h.1.1, h.1.2⟩, h.2⟩ hc
  · exact good_mono s c now h hc

theorem good_pause (s : ClockState) (c now : Nat) (h : Good s c)
    (hc : c ≤ now) : Good (pause s now) now := by
  unfold pause
  exact good_roll _ c now ⟨⟨h.1.1, h.1.2⟩, h.2⟩ hc

theorem good_reset_all (s : ClockState) (c now : Nat) (h : Good s c) :
    Good (reset_all s) now := by
  unfold reset_all
  split
  · exact ⟨⟨h.1.1, h.1.2⟩, List.chain'_nil, by simp, rfl⟩
  · exact ⟨⟨by show ("focus" : String) ∈ ["focus", "break", "lunch"]; decide, h.1.2⟩, List.chain'_nil, by simp, rfl⟩

theorem good_skip_phase (s : ClockState) (c now : Nat) (h : Good s c)
    (hc : c ≤ now) : Good (skip_phase s now) now := by
  unfold skip_phase
  split
  · exact good_mono s c now h hc
  split
  · exact good_mono s c now h hc
  split
  · exact good_end_microbreak s c now h hc
  split
  · exact good_finish_focus_unit s false c now h hc
  · exact good_switch_to_focus s c now h hc

theorem good_rewind_phase (s : ClockState) (c now : Nat) (h : Good s c)
    (hc : c ≤ now) : Good (rewind_phase s now) now := by
  unfold rewind_phase
  split
  · exact good_mono s c now h hc
  split
  · exact good_mono s c now h hc
  split
  · exact good_congr _ s rfl rfl rfl rfl rfl now (good_mono s c now h hc)
  split
  · split
    · exact good_congr _ s rfl rfl rfl rfl rfl now (good_mono s c now h hc)
    split
    · exact good_congr _ s rfl rfl rfl rfl rfl now (good_mono s c now h hc)
    · exact good_switch_to_break _ c now ⟨⟨h.1.1, h.1.2⟩, h.2⟩ hc
  split
  · split
    · exact good_congr _ s rfl rfl rfl rfl rfl now (good_mono s c now h hc)
    · exact good_switch_to_focus s c now h hc
  split
  · split
    · exact good_congr _ s rfl rfl rfl rfl rfl now (good_mono s c now h hc)
    · exact good_mono _ c now ⟨⟨h.1.2, h.1.2⟩, h.2⟩ hc
  · exact good_mono s c now h hc

theorem good_apply_settings (s : ClockState) (f b m g u : Int) (e : Bool)
    (c now : Nat) (h : Good s c) (hc : c ≤ now) :
    Good (apply_settings s f b m g u e) now := by
  simp only [apply_settings]
  split <;>
    exact good_congr _ s rfl rfl rfl rfl rfl now (good_mono s c now h hc)

theorem good_on_tick (s : ClockState) (c now : Nat) (h : Good s c)
    (hc : c ≤ now) : Good (on_tick s now) now := by
  unfold on_tick
  split
  · exact good_mono s c now h hc
  · set r := roll_segment_if_needed s now with hr
    have hgr : Good r now := by
      rw [hr]
      exact good_roll s c now h hc
    clear_value r
    clear hr
    simp only []
    by_cases hwp : r.profile = "worklog"
    · rw [if_pos hwp]
      split
      · exact good_congr _ r rfl rfl rfl rfl rfl now hgr
      · exact hgr
    · rw [if_neg hwp]
      by_cases hmb : r.microbreak_active = true
      · rw [if_pos hmb]
        by_cases hend : r.microbreak_remaining - 1 ≤ 0
        · rw [if_pos hend]
          exact good_end_microbreak _ now now
            (good_congr _ r rfl rfl rfl rfl rfl now hgr) (le_refl now)
        · rw [if_neg hend]
          exact good_congr _ r rfl rfl rfl rfl rfl now hgr
      · rw [if_neg hmb]
        by_cases hmf : r.mode = "focus"
        · simp only [hmf, String.reduceEq, reduceIte, true_and]
          by_cases hrm : r.remaining - 1 ∈ r.remind_at ∧
              r.remaining - 1 ∉ r.reminded_this_focus
          · rw [if_pos hrm]
            by_cases hth : r.remaining - 1 = 40 * 60 ∨
                r.remaining - 1 = 20 * 60
            · rw [if_pos hth]
              exact good_start_microbreak _ _ now now
                ⟨⟨by show ("focus" : String) ∈ ["focus", "break", "lunch"]; decide, hgr.1.2⟩, hgr.2⟩
                (le_refl now)
            · rw [if_neg hth]
              by_cases hz : r.remaining - 1 = 0
              · rw [if_pos hz]
                exact good_finish_focus_unit _ _ now now
                  ⟨⟨by show ("focus" : String) ∈ ["focus", "break", "lunch"]; decide, hgr.1.2⟩, hgr.2⟩
                  (le_refl now)
              · rw [if_neg hz]
                by_cases hle0 : r.remaining - 1 ≤ 0
                · rw [if_pos hle0]
                  exact good_finish_focus_unit _ _ now now
                    ⟨⟨by show ("focus" : String) ∈ ["focus", "break", "lunch"]; decide, hgr.1.2⟩, hgr.2⟩
                    (le_refl now)
                · rw [if_neg hle0]
                  exact ⟨⟨by show ("focus" : String) ∈ ["focus", "break", "lunch"]; decide, hgr.1.2⟩, hgr.2⟩
          · rw [if_neg hrm]
            by_cases hle0 : r.remaining - 1 ≤ 0
            · rw [if_pos hle0]
              exact good_finish_focus_unit _ _ now now
                ⟨⟨by show ("focus" : String) ∈ ["focus", "break", "lunch"]; decide, hgr.1.2⟩, hgr.2⟩
                (le_refl now)
            · rw [if_neg hle0]
              exact ⟨⟨by show ("focus" : String) ∈ ["focus", "break", "lunch"]; decide, hgr.1.2⟩, hgr.2⟩
        · simp only [hmf, String.reduceEq, reduceIte, false_and,
            if_neg hmf]
          by_cases hle0 : r.remaining - 1 ≤ 0
          · rw [if_pos hle0]
            by_cases hlunch : r.mode = "lunch"
            · rw [if_pos hlunch]
              exact ⟨⟨hgr.1.2, hgr.1.2⟩, hgr.2⟩
            · rw [if_neg hlunch]
              exact good_switch_to_focus _ now now
                (good_congr _ r rfl rfl rfl rfl rfl now hgr) (le_refl now)
          · rw [if_neg hle0]
            exact good_congr _ r rfl rfl rfl rfl rfl now hgr

theorem good_init : Good initState 0 :=
  ⟨⟨by show ("focus" : String) ∈ ["focus", "break", "lunch"]; decide,
    by show ("focus" : String) ∈ ["focus", "break", "lunch"]; decide⟩,
   List.chain'_nil, fun _ he => absurd he (by simp [initState]), rfl⟩

theorem reachable_good (s : ClockState) (c : Nat) (h : ReachableAt s c) :
    Good s c := by
  induction h with
  | init => exact good_init
  | step s c s2 now hr hnow hstep ih =>
    cases hstep with
    | tick => exact good_on_tick s c now ih hnow
    | pause_tick => exact good_on_pause_count_tick s c now ih hnow
    | user_start => exact good_start s c now ih hnow
    | user_pause => exact good_pause s c now ih hnow
    | skip => exact good_skip_phase s c now ih hnow
    | rewind => exact good_rewind_phase s c now ih hnow
    | reset => exact good_reset_all s c now ih
    | settings f b m g u e => exact good_apply_settings s f b m g u e c now ih hnow
    | lunch => exact good_start_lunch_break s c now ih hnow

/-- C8: in every reachable state (wall clock monotone across operations),
consecutive closed entries of the segment log are adjacent —
`e[i].stop = e[i+1].start`, no gaps and no overlaps — and every entry has
`start ≤ stop`. -/
theorem reachable_log_chain (s : ClockState) (c : Nat)
    (h : ReachableAt s c) :
    List.Chain' (fun a b => a.stop = b.start) s.log ∧
    ∀ e ∈ s.log, e.start ≤ e.stop := by
  obtain ⟨-, hch, hord, -⟩ := reachable_good s c h
  exact ⟨hch, hord⟩

/-- Witness for C8: the initial state is reachable. -/
theorem reachable_log_chain_w :
    List.Chain' (fun a b => a.stop = b.start) initState.log ∧
    ∀ e ∈ initState.log, e.start ≤ e.stop :=
  reachable_log_chain initState 0 ReachableAt.init

end FocusClock
